import Mathlib

/-!
# adrf-caching: verification of the key-derivation and invalidation protocol

A shallow embedding of the cache-aside layer described by the repository's
specification.  The repository's source tree ships only the concrete view
classes (`caching/generics.py`, `caching/viewsets.py`) and the test suite;
the two modules holding the actual logic — `utils.py` (the `CacheUtils`
key-derivation / version-store helpers) and `mixins.py` (the five cache-aside
CRUD mixins) — are referenced by the views and tests but are not part of the
tree.  Those two modules are therefore modelled from the specification
(§3, §4, §6, §7), with each such definition marked `Modelled from the spec:`.

Cache keys are modelled structurally (`CacheKey`), mirroring the spec's three
exact key shapes `obj:{hash}:{id}`, `list:{hash}:{params}:v{version}` and
`u_ver:{principalId}`; `CacheKey.render` produces the literal string form.
The spec's `canonicalParams` is required to be a deterministic rendering under
which "differently-ordered equivalent parameter sets collapse to one key and
different parameter sets never collapse" (§3), so the canonical form is the
lexicographically sorted entry list itself.  The cache backend is an opaque
per-key map, and every asynchronous operation is embedded as an explicit
state-passing function.
-/

namespace AdrfCaching

/-- A request's filter/query parameters, as key=value entries. -/
abbrev Params := List (String × String)

/-- Ordering of parameter entries: lexicographically by key, with ties broken
by value (the ordering of pairs used when sorting the entry list). -/
def paramLE (a b : String × String) : Prop :=
  a.1 < b.1 ∨ (a.1 = b.1 ∧ a.2 ≤ b.2)

instance : DecidableRel paramLE := fun _ _ =>
  inferInstanceAs (Decidable (_ ∨ _))

instance : IsTotal (String × String) paramLE where
  total a b := by
    rcases lt_trichotomy a.1 b.1 with h | h | h
    · exact Or.inl (Or.inl h)
    · rcases le_total a.2 b.2 with h2 | h2
      · exact Or.inl (Or.inr ⟨h, h2⟩)
      · exact Or.inr (Or.inr ⟨h.symm, h2⟩)
    · exact Or.inr (Or.inl h)

instance : IsTrans (String × String) paramLE where
  trans a b c hab hbc := by
    rcases hab with h1 | ⟨e1, l1⟩ <;> rcases hbc with h2 | ⟨e2, l2⟩
    · exact Or.inl (h1.trans h2)
    · exact Or.inl (lt_of_lt_of_eq h1 e2)
    · exact Or.inl (lt_of_eq_of_lt e1 h2)
    · exact Or.inr ⟨e1.trans e2, l1.trans l2⟩

instance : IsAntisymm (String × String) paramLE where
  antisymm a b hab hba := by
    rcases hab with h1 | ⟨e1, l1⟩ <;> rcases hba with h2 | ⟨e2, l2⟩
    · exact absurd (h1.trans h2) (lt_irrefl _)
    · exact absurd (lt_of_lt_of_eq h1 e2) (lt_irrefl _)
    · exact absurd (lt_of_lt_of_eq h2 e1) (lt_irrefl _)
    · exact Prod.ext_iff.mpr ⟨e1, le_antisymm l1 l2⟩

/-- Modelled from the spec: `canonicalParams` (§3, §6) — the request's
filter parameters "sorted lexicographically by key, joined deterministically,
so that differently-ordered equivalent parameter sets collapse to one key and
different parameter sets never collapse".  The canonical form is the sorted
entry list; `renderParams` below gives its string rendering. -/
def canonicalParams (ps : Params) : Params :=
  List.insertionSort paramLE ps

/-- A stored object of the data repository: an identifier plus a field map.
The repository's payload shape is out of scope for the spec (§1 non-goals);
a field map is the minimal structure on which full and partial update differ. -/
structure Obj where
  id : Nat
  fields : List (String × String)
  deriving DecidableEq

/-- A serialized resource representation: the object's field map together with
its rendered identifier (the spec leaves the serialization format to the
collaborator, §1). -/
abbrev Serialized := List (String × String)

/-- Serialization of a repository object. -/
def serialize (o : Obj) : Serialized :=
  ("id", Nat.repr o.id) :: o.fields

/-- Modelled from the spec: the three exact cache-key shapes of §6 —
`obj:{resourceTypeHash}:{id}`, `list:{resourceTypeHash}:{sortedParamString}:v{version}`
and `u_ver:{principalId}` — modelled structurally; `CacheKey.render` produces
the literal string of each shape. -/
inductive CacheKey
  | obj (hash : String) (id : Nat)
  | coll (hash : String) (params : Params) (version : Nat)
  | uver (uid : Nat)
  deriving DecidableEq

/-- A value held by the cache backend: a version counter, a cached serialized
object, or a cached serialized collection. -/
inductive CacheVal
  | nat (n : Nat)
  | obj (s : Serialized)
  | coll (l : List Serialized)
  deriving DecidableEq

/-- The opaque key-value cache backend (§6): per-key get/set/delete. -/
abbrev Store := CacheKey → Option CacheVal

/-- Backend `set(key, value)`. -/
def Store.set (c : Store) (k : CacheKey) (v : CacheVal) : Store :=
  fun q => if q = k then some v else c q

/-- Backend `delete(key)`. -/
def Store.del (c : Store) (k : CacheKey) : Store :=
  fun q => if q = k then none else c q

/-- The empty cache backend. -/
def emptyStore : Store := fun _ => none

/-- The string rendering of the canonical parameter list:
`key=value` entries joined with a fixed separator (§6 `sortedParamString`). -/
def renderParams (ps : Params) : String :=
  String.intercalate "&" (ps.map fun p => p.1 ++ "=" ++ p.2)

/-- The literal string form of each cache key, exactly the formats of §6. -/
def CacheKey.render : CacheKey → String
  | .obj h i => "obj:" ++ h ++ ":" ++ Nat.repr i
  | .coll h ps v => "list:" ++ h ++ ":" ++ renderParams ps ++ ":v" ++ Nat.repr v
  | .uver u => "u_ver:" ++ Nat.repr u

/-- Modelled from the spec: `resourceTypeHash` (§4.1, `CacheUtils.get_model_hash`
in `utils.py`, absent from the tree) — lower-case the resource type name and
apply a stable digest.  The spec states "any stable hash is acceptable; exact
bytes are not a compatibility requirement", so the digest is modelled as the
identity on the lower-cased name. -/
def resourceTypeHash (name : String) : String :=
  name.toLower

/-- Modelled from the spec: `getVersion` (§4.2, `CacheUtils.get_user_version`
in `utils.py`, absent from the tree) — "if no counter exists for principalId,
atomically create it with value 1, persist it, and return 1; otherwise return
the stored value". -/
def get_user_version (c : Store) (uid : Nat) : Nat × Store :=
  match c (CacheKey.uver uid) with
  | some (CacheVal.nat n) => (n, c)
  | _ => (1, c.set (CacheKey.uver uid) (CacheVal.nat 1))

/-- Modelled from the spec: `incrementVersion` (§4.2,
`CacheUtils.incr_user_version` in `utils.py`, absent from the tree) — "if a
counter exists, increment by 1 and persist; if none exists, initialize to 1
and persist an incremented value of 2 in the same call". -/
def incr_user_version (c : Store) (uid : Nat) : Store :=
  match c (CacheKey.uver uid) with
  | some (CacheVal.nat n) => c.set (CacheKey.uver uid) (CacheVal.nat (n + 1))
  | _ => c.set (CacheKey.uver uid) (CacheVal.nat 2)

/-- The acting identity of a request (§3): an authenticated principal id or
the anonymous principal. -/
inductive Principal
  | anon
  | auth (uid : Nat)
  deriving DecidableEq

/-- Modelled from the spec: `collectionKey` (§4.1,
`CacheUtils.generate_list_key` in `utils.py`, absent from the tree) — computes
the hash, canonicalizes the parameters, resolves the version (authenticated:
read/lazily-init the VersionStore, a pure "read" that can cause a write;
anonymous: the fixed constant 0, with no VersionStore access), and returns
`list:{hash}:{canonicalParams}:v{version}` together with the possibly-updated
backend state. -/
def generate_list_key (c : Store) (ty : String) (pr : Principal) (ps : Params) :
    CacheKey × Store :=
  match pr with
  | .anon => (CacheKey.coll (resourceTypeHash ty) (canonicalParams ps) 0, c)
  | .auth uid =>
      let vc := get_user_version c uid
      (CacheKey.coll (resourceTypeHash ty) (canonicalParams ps) vc.1, vc.2)

/-- The data repository's object table (§6 collaborator). -/
abbrev Repo := List Obj

/-- Repository `retrieve(id)` lookup. -/
def repoGet (r : Repo) (id : Nat) : Option Obj :=
  r.find? fun o => o.id == id

/-- Repository persist of a changed object. -/
def repoSet (r : Repo) (o : Obj) : Repo :=
  r.map fun x => if x.id = o.id then o else x

/-- Repository `delete(id)`. -/
def repoDel (r : Repo) (id : Nat) : Repo :=
  r.filter fun o => !(o.id == id)

/-- Fresh identifier for a created object. -/
def nextId (r : Repo) : Nat :=
  (r.map Obj.id).foldr max 0 + 1

/-- Repository `create(payload)` on already-validated input. -/
def repoCreate (r : Repo) (fs : List (String × String)) : Obj × Repo :=
  (⟨nextId r, fs⟩, ⟨nextId r, fs⟩ :: r)

/-- Repository `list(params)`: the full result set matching the params. -/
def queryRepo (r : Repo) (ps : Params) : List Obj :=
  r.filter fun o => ps.all fun p => o.fields.lookup p.1 == some p.2

/-- Modelled from the spec: the validation rule applied by the repository
collaborator to Create/Update input (§6, §7 `ValidationFailure` for
"malformed or rule-violating input") — modelled as: every supplied field
value must be non-empty (the test suite's failing input is an empty
`username`). -/
def validFields (fs : List (String × String)) : Bool :=
  fs.all fun f => !(f.2 == "")

/-- Field-map merge for partial update: supplied fields override, unspecified
fields are left untouched (§4.3 Update). -/
def mergeFields (old upd : List (String × String)) : List (String × String) :=
  (old.map fun f =>
    match upd.lookup f.1 with
    | some v => (f.1, v)
    | none => f) ++ upd.filter fun g => (old.lookup g.1).isNone

/-- Apply an update payload to an object: full replace, or partial merge. -/
def applyUpdate (o : Obj) (fs : List (String × String)) (part : Bool) : Obj :=
  if part then ⟨o.id, mergeFields o.fields fs⟩ else ⟨o.id, fs⟩

/-- The externally observable state: cache backend plus data repository. -/
structure Sys where
  cache : Store
  repo : Repo

/-- The error taxonomy of §7 relevant to the cache-aside machines. -/
inductive Err
  | validation
  | notFound
  deriving DecidableEq

/-- Modelled from the spec: the Create cache-aside machine (§4.3,
`CreateModelMixin.acreate` in `mixins.py`, absent from the tree) — validate
and persist via the repository; on validation failure abort before any cache
interaction; on success increment the acting principal's VersionCounter (the
anonymous principal has no counter and the VersionStore is never written for
it, §3) and return the created object's serialized representation.  No
ObjectKey is pre-populated. -/
def acreate (s : Sys) (pr : Principal) (fs : List (String × String)) :
    Except Err Serialized × Sys :=
  if validFields fs then
    let c' := match pr with
      | .auth uid => incr_user_version s.cache uid
      | .anon => s.cache
    (Except.ok (serialize (repoCreate s.repo fs).1), ⟨c', (repoCreate s.repo fs).2⟩)
  else (Except.error Err.validation, s)

/-- Modelled from the spec: the Retrieve cache-aside machine (§4.3,
`RetrieveModelMixin.aretrieve` in `mixins.py`, absent from the tree) — derive
the ObjectKey; on hit return the cached value, bypassing the repository
entirely; on miss fetch from the repository (NotFound if absent), serialize,
cache under the ObjectKey, and return. -/
def aretrieve (s : Sys) (ty : String) (id : Nat) : Except Err Serialized × Sys :=
  match s.cache (CacheKey.obj (resourceTypeHash ty) id) with
  | some (CacheVal.obj v) => (Except.ok v, s)
  | _ =>
    match repoGet s.repo id with
    | some o =>
        (Except.ok (serialize o),
          ⟨s.cache.set (CacheKey.obj (resourceTypeHash ty) id)
              (CacheVal.obj (serialize o)), s.repo⟩)
    | none => (Except.error Err.notFound, s)

/-- Modelled from the spec: the Update cache-aside machine (§4.3,
`UpdateModelMixin.aupdate` in `mixins.py`, absent from the tree) — validate
and persist via the repository (partial mode leaves unspecified fields
untouched); on validation failure abort before any cache mutation; NotFound
if the id is absent; on success overwrite (not invalidate) the ObjectKey
entry with the freshly serialized post-update object.  Collection caches and
version counters are not touched. -/
def aupdate (s : Sys) (ty : String) (id : Nat) (fs : List (String × String))
    (part : Bool) : Except Err Serialized × Sys :=
  if validFields fs then
    match repoGet s.repo id with
    | some o =>
        (Except.ok (serialize (applyUpdate o fs part)),
          ⟨s.cache.set (CacheKey.obj (resourceTypeHash ty) id)
              (CacheVal.obj (serialize (applyUpdate o fs part))),
            repoSet s.repo (applyUpdate o fs part)⟩)
    | none => (Except.error Err.notFound, s)
  else (Except.error Err.validation, s)

/-- Modelled from the spec: the Destroy cache-aside machine (§4.3,
`DestroyModelMixin.adestroy` in `mixins.py`, absent from the tree) — delete
via the repository (NotFound if absent); on success delete the ObjectKey
entry from the cache backend, then increment the acting principal's
VersionCounter. -/
def adestroy (s : Sys) (ty : String) (pr : Principal) (id : Nat) :
    Except Err Unit × Sys :=
  match repoGet s.repo id with
  | some _ =>
      let c1 := s.cache.del (CacheKey.obj (resourceTypeHash ty) id)
      let c2 := match pr with
        | .auth uid => incr_user_version c1 uid
        | .anon => c1
      (Except.ok (), ⟨c2, repoDel s.repo id⟩)
  | none => (Except.error Err.notFound, s)

/-- Modelled from the spec: the List cache-aside machine (§4.3,
`ListModelMixin.alist` in `mixins.py`, absent from the tree) — derive the
CollectionKey (possibly lazily initializing the principal's version); on hit
return the cached collection unchanged; on miss query the repository,
serialize, cache under the CollectionKey, and return. -/
def alist (s : Sys) (ty : String) (pr : Principal) (ps : Params) :
    List Serialized × Sys :=
  let kc := generate_list_key s.cache ty pr ps
  match kc.2 kc.1 with
  | some (CacheVal.coll l) => (l, ⟨kc.2, s.repo⟩)
  | _ =>
      ((queryRepo s.repo ps).map serialize,
        ⟨(kc.2).set kc.1 (CacheVal.coll ((queryRepo s.repo ps).map serialize)),
          s.repo⟩)

/-! ## Helper lemmas -/

/-- Canonicalization permutes the entry list. -/
theorem canonicalParams_perm (ps : Params) : List.Perm (canonicalParams ps) ps :=
  List.perm_insertionSort paramLE ps

/-- The canonical form is sorted. -/
theorem canonicalParams_sorted (ps : Params) :
    List.Sorted paramLE (canonicalParams ps) :=
  List.sorted_insertionSort paramLE ps

/-- Two entry lists canonicalize identically exactly when they are
permutations of one another. -/
theorem canonicalParams_eq_iff (P Q : Params) :
    canonicalParams P = canonicalParams Q ↔ List.Perm P Q := by
  constructor
  · intro h
    have h1 : List.Perm P (canonicalParams Q) :=
      h ▸ (canonicalParams_perm P).symm
    exact h1.trans (canonicalParams_perm Q)
  · intro h
    exact List.eq_of_perm_of_sorted
      ((canonicalParams_perm P).trans (h.trans (canonicalParams_perm Q).symm))
      (canonicalParams_sorted P) (canonicalParams_sorted Q)

/-- After `incrementVersion`, the stored counter is one more than what
`getVersion` would have returned on the prior state. -/
theorem incr_lookup (c : Store) (uid : Nat) :
    incr_user_version c uid (CacheKey.uver uid) =
      some (CacheVal.nat ((get_user_version c uid).1 + 1)) := by
  rcases hc : c (CacheKey.uver uid) with _ | v
  · simp [incr_user_version, get_user_version, hc, Store.set]
  · rcases v with n | o | l <;>
      simp [incr_user_version, get_user_version, hc, Store.set]

/-- `incrementVersion` touches only the acted-on principal's counter key. -/
theorem incr_frame (c : Store) (uid : Nat) (k : CacheKey)
    (hk : k ≠ CacheKey.uver uid) : incr_user_version c uid k = c k := by
  rcases hc : c (CacheKey.uver uid) with _ | v
  · simp [incr_user_version, hc, Store.set, hk]
  · rcases v with n | o | l <;> simp [incr_user_version, hc, Store.set, hk]

/-- The value `getVersion` returns depends only on the stored counter. -/
theorem get_user_version_fst_congr (c c' : Store) (uid : Nat)
    (h : c (CacheKey.uver uid) = c' (CacheKey.uver uid)) :
    (get_user_version c uid).1 = (get_user_version c' uid).1 := by
  rcases hc : c' (CacheKey.uver uid) with _ | v
  · simp [get_user_version, h, hc]
  · rcases v with n | o | l <;> simp [get_user_version, h, hc]

/-- The collection key derived for an authenticated principal. -/
theorem generate_list_key_auth (c : Store) (ty : String) (uid : Nat)
    (ps : Params) :
    (generate_list_key c ty (Principal.auth uid) ps).1 =
      CacheKey.coll (resourceTypeHash ty) (canonicalParams ps)
        ((get_user_version c uid).1) := rfl

/-! ## Claim theorems -/

/-- C1: For every resource type, principal, and pair of filter-parameter maps
P and Q, with the principal's version held fixed between the two calls (both
derivations start from the same backend state), the collection-key derivation
returns the same key for P and Q if and only if P and Q are equal as
key-value maps: reordering entries never changes the key, and two distinct
parameter maps never produce the same key. -/
theorem generate_list_key_eq_iff (c : Store) (ty : String) (pr : Principal)
    (P Q : Params) (hP : (P.map Prod.fst).Nodup) (hQ : (Q.map Prod.fst).Nodup) :
    (generate_list_key c ty pr P).1 = (generate_list_key c ty pr Q).1 ↔
      ∀ e : String × String, e ∈ P ↔ e ∈ Q := by
  have key_eq : (generate_list_key c ty pr P).1 = (generate_list_key c ty pr Q).1 ↔
      canonicalParams P = canonicalParams Q := by
    cases pr <;> simp [generate_list_key]
  rw [key_eq, canonicalParams_eq_iff]
  exact ⟨fun h e => h.mem_iff,
    fun h => (List.perm_ext_iff_of_nodup (List.Nodup.of_map Prod.fst hP)
      (List.Nodup.of_map Prod.fst hQ)).mpr h⟩

/-- Witness for C1 at a concrete input: the two orderings of
`{page: 1, sort: id}` derive the same collection key. -/
theorem generate_list_key_eq_iff_witness :
    (generate_list_key emptyStore "User" Principal.anon
        [("page", "1"), ("sort", "id")]).1 =
      (generate_list_key emptyStore "User" Principal.anon
        [("sort", "id"), ("page", "1")]).1 :=
  (generate_list_key_eq_iff emptyStore "User" Principal.anon
      [("page", "1"), ("sort", "id")] [("sort", "id"), ("page", "1")]
      (by decide) (by decide)).mpr
    (by
      intro e
      simp only [List.mem_cons, List.not_mem_nil, or_false]
      exact or_comm)

/-- C2: VersionStore semantics — `getVersion` on a principal with no stored
counter returns 1 and persists 1 under that principal's counter key; on a
stored counter n it returns n; `incrementVersion` on a stored counter n
persists n+1, and on a principal with no stored counter persists 2. -/
theorem version_store_semantics (c : Store) (uid : Nat) (n : Nat) :
    (c (CacheKey.uver uid) = none →
      get_user_version c uid =
        (1, c.set (CacheKey.uver uid) (CacheVal.nat 1))) ∧
    (c (CacheKey.uver uid) = some (CacheVal.nat n) →
      get_user_version c uid = (n, c)) ∧
    (c (CacheKey.uver uid) = some (CacheVal.nat n) →
      incr_user_version c uid =
        c.set (CacheKey.uver uid) (CacheVal.nat (n + 1))) ∧
    (c (CacheKey.uver uid) = none →
      incr_user_version c uid =
        c.set (CacheKey.uver uid) (CacheVal.nat 2)) := by
  refine ⟨?_, ?_, ?_, ?_⟩ <;> intro h <;>
    simp [get_user_version, incr_user_version, h]

/-- Witness for C2 at concrete inputs: a fresh principal's `getVersion`
returns and persists 1, and `incrementVersion` on a stored counter of 10
persists 11. -/
theorem version_store_semantics_witness :
    get_user_version emptyStore 1 =
      (1, emptyStore.set (CacheKey.uver 1) (CacheVal.nat 1)) ∧
    incr_user_version (emptyStore.set (CacheKey.uver 1) (CacheVal.nat 10)) 1 =
      (emptyStore.set (CacheKey.uver 1) (CacheVal.nat 10)).set
        (CacheKey.uver 1) (CacheVal.nat 11) :=
  ⟨(version_store_semantics emptyStore 1 0).1 rfl,
    (version_store_semantics (emptyStore.set (CacheKey.uver 1)
        (CacheVal.nat 10)) 1 10).2.2.1 rfl⟩

/-- C3: After every successful Create by authenticated principal A, A's
VersionCounter is exactly one greater than before, every cache entry other
than A's counter key — in particular every other principal's counter, every
cached collection entry, and every ObjectKey (so no ObjectKey is written for
the new object) — is unchanged, and A's next derived collection key (same
resource type, any parameter sets) differs from any collection key A derived
before the create. -/
theorem acreate_version_bump (c : Store) (r : Repo) (ty2 : String) (uid : Nat)
    (fs : List (String × String)) (hv : validFields fs = true) :
    ((acreate ⟨c, r⟩ (Principal.auth uid) fs).2.cache (CacheKey.uver uid) =
      some (CacheVal.nat ((get_user_version c uid).1 + 1))) ∧
    (∀ k, k ≠ CacheKey.uver uid →
      (acreate ⟨c, r⟩ (Principal.auth uid) fs).2.cache k = c k) ∧
    (∀ ps1 ps2 : Params,
      (generate_list_key ((acreate ⟨c, r⟩ (Principal.auth uid) fs).2.cache)
          ty2 (Principal.auth uid) ps2).1 ≠
        (generate_list_key c ty2 (Principal.auth uid) ps1).1) := by
  have hc' : (acreate ⟨c, r⟩ (Principal.auth uid) fs).2.cache =
      incr_user_version c uid := by
    simp [acreate, hv]
  refine ⟨?_, ?_, ?_⟩
  · rw [hc']; exact incr_lookup c uid
  · intro k hk; rw [hc']; exact incr_frame c uid k hk
  · intro ps1 ps2 heq
    rw [hc'] at heq
    have h1 := incr_lookup c uid
    have e1 : (generate_list_key (incr_user_version c uid) ty2
        (Principal.auth uid) ps2).1 =
        CacheKey.coll (resourceTypeHash ty2) (canonicalParams ps2)
          ((get_user_version c uid).1 + 1) := by
      simp [generate_list_key, get_user_version, h1]
    rw [e1, generate_list_key_auth] at heq
    injection heq with h2 h3 h4
    omega

/-- Witness for C3 at a concrete input: on a fresh backend, principal 1's
counter after a successful create is 2 (one more than the lazily initialized
1), object keys are untouched, and the re-derived collection key differs. -/
theorem acreate_version_bump_witness :
    validFields [("username", "alice")] = true ∧
    (acreate ⟨emptyStore, []⟩ (Principal.auth 1)
        [("username", "alice")]).2.cache (CacheKey.uver 1) =
      some (CacheVal.nat 2) ∧
    (acreate ⟨emptyStore, []⟩ (Principal.auth 1)
        [("username", "alice")]).2.cache (CacheKey.obj "user" 1) = none ∧
    (generate_list_key ((acreate ⟨emptyStore, []⟩ (Principal.auth 1)
        [("username", "alice")]).2.cache) "User" (Principal.auth 1) []).1 ≠
      (generate_list_key emptyStore "User" (Principal.auth 1) []).1 := by
  have h := acreate_version_bump emptyStore [] "User" 1
    [("username", "alice")] rfl
  exact ⟨rfl, h.1, h.2.1 (CacheKey.obj "user" 1) (by simp), h.2.2 [] []⟩

/-- C4: For every Create or Update (full or partial) whose input fails
validation, the operation surfaces the validation error and performs zero
cache side effects: the entire observable state — cache and repository — is
returned exactly as it was, so nothing is written, overwritten or deleted,
no counter changes, and any previously cached value is intact. -/
theorem invalid_input_no_side_effects (s : Sys) (pr : Principal) (ty : String)
    (id : Nat) (fs : List (String × String)) (part : Bool)
    (hv : validFields fs = false) :
    acreate s pr fs = (Except.error Err.validation, s) ∧
    aupdate s ty id fs part = (Except.error Err.validation, s) := by
  constructor <;> simp [acreate, aupdate, hv]

/-- Witness for C4 at a concrete input: an empty `username` fails validation
and both Create and a partial Update leave the seeded state untouched. -/
theorem invalid_input_no_side_effects_witness :
    validFields [("username", "")] = false ∧
    acreate ⟨emptyStore, []⟩ Principal.anon [("username", "")] =
      (Except.error Err.validation, ⟨emptyStore, []⟩) ∧
    aupdate ⟨emptyStore, []⟩ "User" 1 [("username", "")] true =
      (Except.error Err.validation, ⟨emptyStore, []⟩) := by
  have h := invalid_input_no_side_effects ⟨emptyStore, []⟩ Principal.anon
    "User" 1 [("username", "")] true rfl
  exact ⟨rfl, h.1, h.2⟩

/-- C5: For every Retrieve where the ObjectKey is present in the cache, the
returned data equals the cached value and the repository is not consulted —
the result is the same for every repository content, including one changed
out-of-band after caching, and the state is unchanged; on a cache miss,
Retrieve fetches the object from the repository, caches its serialization
under the ObjectKey, and returns it. -/
theorem aretrieve_cache_aside (c : Store) (r : Repo) (ty : String) (id : Nat)
    (v : Serialized) (o : Obj) :
    (c (CacheKey.obj (resourceTypeHash ty) id) = some (CacheVal.obj v) →
      aretrieve ⟨c, r⟩ ty id = (Except.ok v, ⟨c, r⟩)) ∧
    (c (CacheKey.obj (resourceTypeHash ty) id) = none →
      repoGet r id = some o →
      aretrieve ⟨c, r⟩ ty id =
        (Except.ok (serialize o),
          ⟨c.set (CacheKey.obj (resourceTypeHash ty) id)
              (CacheVal.obj (serialize o)), r⟩)) := by
  constructor
  · intro h; simp [aretrieve, h]
  · intro h hr; simp [aretrieve, h, hr]

/-- Witness for C5 at a concrete input: with a cached value under the
ObjectKey and a repository row that was changed out-of-band, Retrieve
returns the originally cached value and leaves the state unchanged. -/
theorem aretrieve_cache_aside_witness :
    aretrieve ⟨emptyStore.set (CacheKey.obj (resourceTypeHash "User") 1)
          (CacheVal.obj [("username", "primary_user")]),
        [⟨1, [("username", "hacker_change")]⟩]⟩ "User" 1 =
      (Except.ok [("username", "primary_user")],
        ⟨emptyStore.set (CacheKey.obj (resourceTypeHash "User") 1)
            (CacheVal.obj [("username", "primary_user")]),
          [⟨1, [("username", "hacker_change")]⟩]⟩) :=
  (aretrieve_cache_aside _ _ "User" 1 [("username", "primary_user")]
      ⟨1, [("username", "hacker_change")]⟩).1 (by simp [Store.set])

/-- C6: After every successful Update (full or partial), the cache entry
under the object's ObjectKey is present and equals the freshly serialized
post-update object, the operation returns that same serialization, and every
other cache entry — every collection entry and every version counter — is
unchanged. -/
theorem aupdate_refreshes_object_cache (c : Store) (r : Repo) (ty : String)
    (id : Nat) (fs : List (String × String)) (part : Bool) (o : Obj)
    (hv : validFields fs = true) (hr : repoGet r id = some o) :
    ((aupdate ⟨c, r⟩ ty id fs part).2.cache
        (CacheKey.obj (resourceTypeHash ty) id) =
      some (CacheVal.obj (serialize (applyUpdate o fs part)))) ∧
    ((aupdate ⟨c, r⟩ ty id fs part).1 =
      Except.ok (serialize (applyUpdate o fs part))) ∧
    (∀ k, k ≠ CacheKey.obj (resourceTypeHash ty) id →
      (aupdate ⟨c, r⟩ ty id fs part).2.cache k = c k) := by
  refine ⟨?_, ?_, ?_⟩
  · simp [aupdate, hv, hr, Store.set]
  · simp [aupdate, hv, hr]
  · intro k hk; simp [aupdate, hv, hr, Store.set, hk]

/-- Witness for C6 at a concrete input: a full update of object 1 overwrites
its ObjectKey entry with the new serialization and leaves an unrelated
collection entry untouched. -/
theorem aupdate_refreshes_object_cache_witness :
    validFields [("username", "updated")] = true ∧
    repoGet [⟨1, [("username", "old_name")]⟩] 1 =
      some ⟨1, [("username", "old_name")]⟩ ∧
    (aupdate ⟨emptyStore, [⟨1, [("username", "old_name")]⟩]⟩ "User" 1
        [("username", "updated")] false).2.cache
        (CacheKey.obj (resourceTypeHash "User") 1) =
      some (CacheVal.obj [("id", "1"), ("username", "updated")]) ∧
    (aupdate ⟨emptyStore, [⟨1, [("username", "old_name")]⟩]⟩ "User" 1
        [("username", "updated")] false).2.cache (CacheKey.uver 1) = none := by
  have h := aupdate_refreshes_object_cache emptyStore
    [⟨1, [("username", "old_name")]⟩] "User" 1 [("username", "updated")]
    false ⟨1, [("username", "old_name")]⟩ rfl rfl
  refine ⟨rfl, rfl, ?_, ?_⟩
  · have h1 := h.1
    simpa [applyUpdate, serialize] using h1
  · exact h.2.2 (CacheKey.uver 1) (by simp)

/-- The value `getVersion` returns when a counter is stored. -/
theorem get_user_version_fst_eq (c : Store) (uid n : Nat)
    (h : c (CacheKey.uver uid) = some (CacheVal.nat n)) :
    (get_user_version c uid).1 = n := by
  simp [get_user_version, h]

/-- C7: After every successful Destroy of an object by authenticated
principal A, the ObjectKey entry is absent from the cache, A's
VersionCounter has been incremented (one more than `getVersion` would have
returned before), and A's next derived collection key (same resource type,
any parameter sets) differs from any collection key A derived before the
destroy. -/
theorem adestroy_invalidates (c : Store) (r : Repo) (ty ty2 : String)
    (uid id : Nat) (o : Obj) (hr : repoGet r id = some o) :
    ((adestroy ⟨c, r⟩ ty (Principal.auth uid) id).2.cache
        (CacheKey.obj (resourceTypeHash ty) id) = none) ∧
    ((adestroy ⟨c, r⟩ ty (Principal.auth uid) id).2.cache
        (CacheKey.uver uid) =
      some (CacheVal.nat ((get_user_version c uid).1 + 1))) ∧
    (∀ ps1 ps2 : Params,
      (generate_list_key
          ((adestroy ⟨c, r⟩ ty (Principal.auth uid) id).2.cache) ty2
          (Principal.auth uid) ps2).1 ≠
        (generate_list_key c ty2 (Principal.auth uid) ps1).1) := by
  have hc' : (adestroy ⟨c, r⟩ ty (Principal.auth uid) id).2.cache =
      incr_user_version (c.del (CacheKey.obj (resourceTypeHash ty) id)) uid := by
    simp [adestroy, hr]
  have hdel : (c.del (CacheKey.obj (resourceTypeHash ty) id))
      (CacheKey.uver uid) = c (CacheKey.uver uid) := by
    simp [Store.del]
  have hfst := get_user_version_fst_congr
    (c.del (CacheKey.obj (resourceTypeHash ty) id)) c uid hdel
  refine ⟨?_, ?_, ?_⟩
  · rw [hc', incr_frame _ _ _ (by simp)]
    simp [Store.del]
  · rw [hc', incr_lookup, hfst]
  · intro ps1 ps2 heq
    rw [hc'] at heq
    have h2 : (get_user_version (incr_user_version
        (c.del (CacheKey.obj (resourceTypeHash ty) id)) uid) uid).1 =
        (get_user_version c uid).1 + 1 := by
      rw [get_user_version_fst_eq _ _ _ (incr_lookup _ uid), hfst]
    rw [generate_list_key_auth, generate_list_key_auth, h2] at heq
    injection heq with h3 h4 h5
    omega

/-- Witness for C7 at a concrete input: destroying object 1 on a warm cache
purges its ObjectKey, stores version counter 2, and the re-derived
collection key differs. -/
theorem adestroy_invalidates_witness :
    repoGet [⟨1, [("username", "bye_bye")]⟩] 1 =
      some ⟨1, [("username", "bye_bye")]⟩ ∧
    ((adestroy ⟨emptyStore.set (CacheKey.obj (resourceTypeHash "User") 1)
            (CacheVal.obj [("username", "bye_bye")]),
          [⟨1, [("username", "bye_bye")]⟩]⟩ "User" (Principal.auth 1) 1).2.cache
        (CacheKey.obj (resourceTypeHash "User") 1) = none) ∧
    ((adestroy ⟨emptyStore.set (CacheKey.obj (resourceTypeHash "User") 1)
            (CacheVal.obj [("username", "bye_bye")]),
          [⟨1, [("username", "bye_bye")]⟩]⟩ "User" (Principal.auth 1) 1).2.cache
        (CacheKey.uver 1) = some (CacheVal.nat 2)) := by
  have h := adestroy_invalidates
    (emptyStore.set (CacheKey.obj (resourceTypeHash "User") 1)
      (CacheVal.obj [("username", "bye_bye")]))
    [⟨1, [("username", "bye_bye")]⟩] "User" "User" 1 1
    ⟨1, [("username", "bye_bye")]⟩ rfl
  exact ⟨rfl, h.1, h.2.1⟩

/-- C8: For every anonymous request, the derived collection key is built only
from the resource type and the canonical parameter set with the fixed version
constant 0 — it carries no principal identity and is independent of the
backend state (so of any principal's counters and of how many anonymous reads
occurred) — its rendered string ends in `:v0`, and the derivation returns the
VersionStore state unchanged (no read is consulted and no write happens). -/
theorem anonymous_key_v0 (c : Store) (ty : String) (ps : Params) :
    ((generate_list_key c ty Principal.anon ps).1 =
      CacheKey.coll (resourceTypeHash ty) (canonicalParams ps) 0) ∧
    ((generate_list_key c ty Principal.anon ps).2 = c) ∧
    (∃ pre : String,
      CacheKey.render (generate_list_key c ty Principal.anon ps).1 =
        pre ++ ":v0") := by
  refine ⟨rfl, rfl,
    ⟨"list:" ++ resourceTypeHash ty ++ ":" ++
      renderParams (canonicalParams ps), ?_⟩⟩
  show "list:" ++ resourceTypeHash ty ++ ":" ++
      renderParams (canonicalParams ps) ++ ":v" ++ Nat.repr 0 = _
  rw [String.append_assoc]
  exact rfl

/-- C9: Two distinct authenticated principals whose version counters resolve
to the same value derive the identical collection key for the identical
resource type and parameter set — the key embeds only the version number, not
the principal id. -/
theorem equal_versions_share_collection_key (c : Store) (ty : String)
    (u1 u2 : Nat) (ps : Params) (_hne : u1 ≠ u2)
    (hv : (get_user_version c u1).1 = (get_user_version c u2).1) :
    (generate_list_key c ty (Principal.auth u1) ps).1 =
      (generate_list_key c ty (Principal.auth u2) ps).1 := by
  rw [generate_list_key_auth, generate_list_key_auth, hv]

/-- Witness for C9 at a concrete input: principals 1 and 2, both freshly
initialized to version 1 on an empty backend, derive the same key. -/
theorem equal_versions_share_collection_key_witness :
    (generate_list_key emptyStore "User" (Principal.auth 1) []).1 =
      (generate_list_key emptyStore "User" (Principal.auth 2) []).1 :=
  equal_versions_share_collection_key emptyStore "User" 1 2 []
    (by decide) rfl

/-! ## The version-positivity invariant (C10) -/

/-- Every stored version counter is at least 1. -/
def VersionsOK (c : Store) : Prop :=
  ∀ uid n, c (CacheKey.uver uid) = some (CacheVal.nat n) → 1 ≤ n

/-- Writing a value that is a positive counter whenever its key is a counter
key preserves the invariant. -/
theorem versionsOK_set (c : Store) (k : CacheKey) (v : CacheVal)
    (hc : VersionsOK c)
    (hv : ∀ u n, k = CacheKey.uver u → v = CacheVal.nat n → 1 ≤ n) :
    VersionsOK (c.set k v) := by
  intro uid n h
  by_cases he : CacheKey.uver uid = k
  · simp [Store.set, he] at h
    exact hv uid n he.symm h
  · simp [Store.set, he] at h
    exact hc uid n h

/-- Deleting any key preserves the invariant. -/
theorem versionsOK_del (c : Store) (k : CacheKey) (hc : VersionsOK c) :
    VersionsOK (c.del k) := by
  intro uid n h
  by_cases he : CacheKey.uver uid = k
  · simp [Store.del, he] at h
  · simp [Store.del, he] at h
    exact hc uid n h

/-- `getVersion` preserves the invariant (the lazy initialization writes 1). -/
theorem versionsOK_get (c : Store) (uid : Nat) (hc : VersionsOK c) :
    VersionsOK (get_user_version c uid).2 := by
  have hset : VersionsOK (c.set (CacheKey.uver uid) (CacheVal.nat 1)) :=
    versionsOK_set c _ _ hc
      (by intro u n _ hv; injection hv with hv; omega)
  rcases h : c (CacheKey.uver uid) with _ | v
  · simpa [get_user_version, h] using hset
  · rcases v with n | ov | lv
    · simpa [get_user_version, h] using hc
    · simpa [get_user_version, h] using hset
    · simpa [get_user_version, h] using hset

/-- `incrementVersion` preserves the invariant (it writes n+1 or 2). -/
theorem versionsOK_incr (c : Store) (uid : Nat) (hc : VersionsOK c) :
    VersionsOK (incr_user_version c uid) := by
  rcases h : c (CacheKey.uver uid) with _ | v
  · simpa [incr_user_version, h] using
      versionsOK_set c _ (CacheVal.nat 2) hc
        (by intro u n _ hv; injection hv with hv; omega)
  · rcases v with n | ov | lv
    · simpa [incr_user_version, h] using
        versionsOK_set c _ (CacheVal.nat (n + 1)) hc
          (by intro u m _ hv; injection hv with hv; omega)
    · simpa [incr_user_version, h] using
        versionsOK_set c _ (CacheVal.nat 2) hc
          (by intro u n _ hv; injection hv with hv; omega)
    · simpa [incr_user_version, h] using
        versionsOK_set c _ (CacheVal.nat 2) hc
          (by intro u n _ hv; injection hv with hv; omega)

/-- The derived collection key is always a collection-shaped key. -/
theorem generate_list_key_is_coll (c : Store) (ty : String) (pr : Principal)
    (ps : Params) :
    ∃ v, (generate_list_key c ty pr ps).1 =
      CacheKey.coll (resourceTypeHash ty) (canonicalParams ps) v := by
  cases pr <;> exact ⟨_, rfl⟩

/-- The state a collection-key derivation returns satisfies the invariant
whenever the input state did. -/
theorem versionsOK_generate (c : Store) (ty : String) (pr : Principal)
    (ps : Params) (hc : VersionsOK c) :
    VersionsOK (generate_list_key c ty pr ps).2 := by
  cases pr
  · exact hc
  · exact versionsOK_get c _ hc

/-- C10: Every version value the layer derives or stores is at least 1 — the
invariant `VersionsOK` is preserved by `getVersion`, `incrementVersion` and
all five cache-aside operations, `getVersion` never returns less than 1 —
so an authenticated request's collection key (version ≥ 1) never equals an
anonymous request's collection key (version 0) for the same resource type
and any parameter sets. -/
theorem authenticated_version_positive (c : Store) (uid : Nat) (ty : String)
    (pr : Principal) (id : Nat) (fs : List (String × String)) (part : Bool)
    (ps ps2 : Params) (r : Repo) (hc : VersionsOK c) :
    VersionsOK (get_user_version c uid).2 ∧
    VersionsOK (incr_user_version c uid) ∧
    VersionsOK (acreate ⟨c, r⟩ pr fs).2.cache ∧
    VersionsOK (alist ⟨c, r⟩ ty pr ps).2.cache ∧
    VersionsOK (aretrieve ⟨c, r⟩ ty id).2.cache ∧
    VersionsOK (aupdate ⟨c, r⟩ ty id fs part).2.cache ∧
    VersionsOK (adestroy ⟨c, r⟩ ty pr id).2.cache ∧
    1 ≤ (get_user_version c uid).1 ∧
    (generate_list_key c ty (Principal.auth uid) ps).1 ≠
      (generate_list_key c ty Principal.anon ps2).1 := by
  have hobj : ∀ u n, ∀ v : CacheVal,
      CacheKey.obj (resourceTypeHash ty) id = CacheKey.uver u →
      v = CacheVal.nat n → 1 ≤ n := by
    intro u n v hk _
    exact CacheKey.noConfusion hk
  have hbound : 1 ≤ (get_user_version c uid).1 := by
    rcases h : c (CacheKey.uver uid) with _ | v
    · simp [get_user_version, h]
    · rcases v with n | ov | lv
      · rw [get_user_version_fst_eq c uid n h]
        exact hc uid n h
      · simp [get_user_version, h]
      · simp [get_user_version, h]
  refine ⟨versionsOK_get c uid hc, versionsOK_incr c uid hc,
    ?_, ?_, ?_, ?_, ?_, hbound, ?_⟩
  · -- acreate
    by_cases hv : validFields fs
    · cases pr
      · simpa [acreate, hv] using hc
      · simpa [acreate, hv] using versionsOK_incr c _ hc
    · simpa [acreate, hv] using hc
  · -- alist
    have h2 : VersionsOK (generate_list_key c ty pr ps).2 :=
      versionsOK_generate c ty pr ps hc
    have hcoll : ∀ u n, ∀ v : CacheVal,
        (generate_list_key c ty pr ps).1 = CacheKey.uver u →
        v = CacheVal.nat n → 1 ≤ n := by
      intro u n v hk _
      obtain ⟨w, hw⟩ := generate_list_key_is_coll c ty pr ps
      rw [hw] at hk
      exact CacheKey.noConfusion hk
    rcases hm : (generate_list_key c ty pr ps).2
        (generate_list_key c ty pr ps).1 with _ | v
    · simpa [alist, hm] using
        versionsOK_set _ _ _ h2 (fun u n hk hv => hcoll u n _ hk hv)
    · rcases v with n | ov | lv
      · simpa [alist, hm] using
          versionsOK_set _ _ _ h2 (fun u n hk hv => hcoll u n _ hk hv)
      · simpa [alist, hm] using
          versionsOK_set _ _ _ h2 (fun u n hk hv => hcoll u n _ hk hv)
      · simpa [alist, hm] using h2
  · -- aretrieve
    rcases hm : c (CacheKey.obj (resourceTypeHash ty) id) with _ | v
    · rcases hg : repoGet r id with _ | o
      · simpa [aretrieve, hm, hg] using hc
      · simpa [aretrieve, hm, hg] using
          versionsOK_set _ _ _ hc (fun u n hk hv => hobj u n _ hk hv)
    · rcases v with n | ov | lv
      · rcases hg : repoGet r id with _ | o
        · simpa [aretrieve, hm, hg] using hc
        · simpa [aretrieve, hm, hg] using
            versionsOK_set _ _ _ hc (fun u n hk hv => hobj u n _ hk hv)
      · simpa [aretrieve, hm] using hc
      · rcases hg : repoGet r id with _ | o
        · simpa [aretrieve, hm, hg] using hc
        · simpa [aretrieve, hm, hg] using
            versionsOK_set _ _ _ hc (fun u n hk hv => hobj u n _ hk hv)
  · -- aupdate
    by_cases hv : validFields fs
    · rcases hg : repoGet r id with _ | o
      · simpa [aupdate, hv, hg] using hc
      · simpa [aupdate, hv, hg] using
          versionsOK_set _ _ _ hc (fun u n hk hval => hobj u n _ hk hval)
    · simpa [aupdate, hv] using hc
  · -- adestroy
    rcases hg : repoGet r id with _ | o
    · simpa [adestroy, hg] using hc
    · have hd : VersionsOK (c.del (CacheKey.obj (resourceTypeHash ty) id)) :=
        versionsOK_del c _ hc
      cases pr
      · simpa [adestroy, hg] using hd
      · simpa [adestroy, hg] using versionsOK_incr _ _ hd
  · -- authenticated key never equals the anonymous key
    intro heq
    rw [generate_list_key_auth] at heq
    have heq2 : CacheKey.coll (resourceTypeHash ty) (canonicalParams ps)
        ((get_user_version c uid).1) =
        CacheKey.coll (resourceTypeHash ty) (canonicalParams ps2) 0 := heq
    injection heq2 with h3 h4 h5
    omega

/-- Witness for C10 at a concrete input: on the empty backend (which trivially
satisfies the invariant) principal 7's derived version is at least 1 and its
collection key differs from the anonymous key for the same parameters. -/
theorem authenticated_version_positive_witness :
    1 ≤ (get_user_version emptyStore 7).1 ∧
    (generate_list_key emptyStore "User" (Principal.auth 7)
        [("search", "a")]).1 ≠
      (generate_list_key emptyStore "User" Principal.anon
        [("search", "a")]).1 := by
  have h := authenticated_version_positive emptyStore 7 "User" Principal.anon
    1 [] false [("search", "a")] [("search", "a")] []
    (by intro u n hx; exact Option.noConfusion hx)
  exact ⟨h.2.2.2.2.2.2.2.1, h.2.2.2.2.2.2.2.2⟩

end AdrfCaching
